import Mathlib

/-!
Shallow embedding of `mopo.py` (a MicroPython moped computer): the rate
meters `Rpm` and `Speed` with their interrupt handlers and averaging
drains, the `Button` gesture detector, the `Limiter` hysteresis machine,
and the per-cycle limiter-update logic of the `show()` control loop.

Machine timestamps come from `utime.ticks_ms()`, a wrapping millisecond
counter; `utime.ticks_diff` is the wrap-safe signed difference over the
MicroPython tick period `2 ^ 30`.  Python `%` on a positive modulus agrees
with `Int.emod`, so indices are modelled as `Int` with `%`.

Floating point results (`avg`, `get_avg`) are modelled over `ℚ`: every
division performed by the code is exact in the reals, and a Python
`ZeroDivisionError` is modelled as `none`.
-/

namespace Mopo

/-- MicroPython tick period for `utime.ticks_ms` (30-bit counter). -/
def TICKS_PERIOD : Int := 2 ^ 30

/-- Source `utime.ticks_diff(a, b)`: wrap-safe signed difference, in
`[-2^29, 2^29)`. -/
def ticks_diff (a b : Int) : Int :=
  (a - b + 2 ^ 29) % TICKS_PERIOD - 2 ^ 29

/-! ## Rpm: the ignition-pulse rate meter -/

/-- Source `Rpm.ARRAYSIZE`: capacity of the spark circular buffer. -/
def Rpm.ARRAYSIZE : Nat := 20

/-- State of an `Rpm` instance (the fields set in `Rpm.__init__`). -/
structure RpmState where
  sparks : List Int
  no_sparks : Nat
  prev_spark_ms : Int
  spark_write_index : Int
  spark_read_index : Nat
  spark_count : Nat
  spark_overflow : Nat
  spark_disqualified : Nat
  this_spark_ms : Int
deriving DecidableEq

/-- Source `Rpm.__init__`: buffer of 20 zeroed slots, write index −1. -/
def initRpm : RpmState :=
  { sparks := List.replicate Rpm.ARRAYSIZE 0
    no_sparks := 0
    prev_spark_ms := 0
    spark_write_index := -1
    spark_read_index := 0
    spark_count := 0
    spark_overflow := 0
    spark_disqualified := 0
    this_spark_ms := 0 }

/-- Source `Rpm.cb_spark`, with the interrupt's `utime.ticks_ms()` reading passed
in as `t`. -/
def cb_spark (s0 : RpmState) (t : Int) : RpmState :=
  let s := { s0 with this_spark_ms := t }
  if s.spark_write_index = -1 then
    { s with spark_write_index := 0
             sparks := s.sparks.set 0 t
             spark_count := s.spark_count + 1 }
  else if ticks_diff t (s.sparks.getD s.spark_write_index.toNat 0) > 4 then
    if s.spark_count ≤ Rpm.ARRAYSIZE then
      let wi := (s.spark_write_index + 1) % (Rpm.ARRAYSIZE : Int)
      { s with spark_write_index := wi
               sparks := s.sparks.set wi.toNat t
               spark_count := s.spark_count + 1 }
    else
      { s with spark_overflow := s.spark_overflow + 1 }
  else
    { s with spark_disqualified := s.spark_disqualified + 1 }

/-- The `while self.spark_count:` drain loop shared in shape by `Rpm.avg`
and `Speed.get_avg`.  With interrupts disabled it runs exactly `n`
iterations (`n` = the pending count); returns the accumulated wrap-safe
interval sum, the final read index and the final baseline timestamp. -/
def drainLoop (size : Nat) : Nat → List Int → Nat → Int → Int → Int × Nat × Int
  | 0, _, ri, prev, acc => (acc, ri, prev)
  | n + 1, buf, ri, prev, acc =>
      let latest := buf.getD ri 0
      drainLoop size n buf ((ri + 1) % size) latest (acc + ticks_diff latest prev)

/-- Source `Rpm.avg`.  Returns the computed rpm (`some`) together with the state
after the drain; `none` models the `ZeroDivisionError` raised by
`rounds * 1000 / avg_spark_interval_ms` when the interval sum is zero
(the state has already been mutated by the loop when the division runs). -/
def Rpm.avg (s : RpmState) : Option ℚ × RpmState :=
  if s.spark_count > 0 then
    let rounds := s.spark_count
    let r := drainLoop Rpm.ARRAYSIZE rounds s.sparks s.spark_read_index s.prev_spark_ms 0
    let s' := { s with spark_count := 0
                       spark_read_index := r.2.1
                       prev_spark_ms := r.2.2 }
    let avg_spark_interval_ms : ℚ := (r.1 : ℚ) / (rounds : ℚ)
    if avg_spark_interval_ms = 0 then (none, s')
    else (some ((rounds : ℚ) * 1000 / avg_spark_interval_ms * 60), s')
  else (some 0, s)

/-! ## Speed: the hall-sensor rate meter -/

/-- Source `Speed.ARRAYSIZE`: capacity of the hall circular buffer. -/
def Speed.ARRAYSIZE : Nat := 10

/-- State of a `Speed` instance (the fields set in `Speed.__init__`). -/
structure SpeedState where
  halls : List Int
  hall_write_index : Int
  hall_read_index : Nat
  hall_count : Nat
  hall_overflow : Nat
  hall_disqualified : Nat
  hall_total : Int
  this_hall_ms : Int
  prev_hall_ms : Int
  no_halls : Nat
  dist : Int
deriving DecidableEq

/-- Source `Speed.__init__` after the mandatory calibration check passed,
with `dist = hall_tick_dist_mm`. -/
def initSpeed (hall_tick_dist_mm : Int) : SpeedState :=
  { halls := List.replicate Speed.ARRAYSIZE 0
    hall_write_index := -1
    hall_read_index := 0
    hall_count := 0
    hall_overflow := 0
    hall_disqualified := 0
    hall_total := 0
    this_hall_ms := 0
    prev_hall_ms := 0
    no_halls := 0
    dist := hall_tick_dist_mm }

/-- Source `Speed.cb_hall`, with the interrupt's `utime.ticks_ms()` reading
passed in as `t`. -/
def cb_hall (s0 : SpeedState) (t : Int) : SpeedState :=
  let s := { s0 with this_hall_ms := t, hall_total := s0.hall_total + 1 }
  if s.hall_write_index = -1 then
    { s with hall_write_index := 0
             halls := s.halls.set 0 t
             hall_count := s.hall_count + 1 }
  else if ticks_diff t (s.halls.getD s.hall_write_index.toNat 0) > 36 then
    if s.hall_count ≤ Speed.ARRAYSIZE then
      let wi := (s.hall_write_index + 1) % (Speed.ARRAYSIZE : Int)
      { s with hall_write_index := wi
               halls := s.halls.set wi.toNat t
               hall_count := s.hall_count + 1 }
    else
      { s with hall_overflow := s.hall_overflow + 1 }
  else
    { s with hall_disqualified := s.hall_disqualified + 1
             hall_total := s.hall_total - 1 }

/-- Source `Speed.get_avg`.  `none` models the `ZeroDivisionError` raised by
`hall_tics * self.dist * 10 / avg_hall_interval_ms / 36` when the
interval sum is zero. -/
def Speed.get_avg (s : SpeedState) : Option ℚ × SpeedState :=
  if s.hall_count > 0 then
    let hall_tics := s.hall_count
    let r := drainLoop Speed.ARRAYSIZE hall_tics s.halls s.hall_read_index s.prev_hall_ms 0
    let s' := { s with hall_count := 0
                       hall_read_index := r.2.1
                       prev_hall_ms := r.2.2 }
    let avg_hall_interval_ms : ℚ := (r.1 : ℚ) / (hall_tics : ℚ)
    if avg_hall_interval_ms = 0 then (none, s')
    else (some ((hall_tics : ℚ) * (s.dist : ℚ) * 10 / avg_hall_interval_ms / 36), s')
  else (some 0, { s with no_halls := s.no_halls + 1 })

/-! ## Event traces for the meters

The producer (interrupt) delivers edges; the consumer (polling loop)
drains via the averaging call.  A trace is a list of such events applied
to the freshly constructed meter. -/

/-- An event on the `Rpm` meter: an interrupt edge at time `t`, or an
`avg()` call by the polling loop. -/
inductive RpmEv
  | edge (t : Int)
  | drain
deriving DecidableEq

/-- Apply one `Rpm` event. -/
def rpmStep (s : RpmState) : RpmEv → RpmState
  | .edge t => cb_spark s t
  | .drain => (Rpm.avg s).2

/-- Run an `Rpm` event trace from the freshly constructed meter. -/
def rpmRun (evs : List RpmEv) : RpmState :=
  evs.foldl rpmStep initRpm

/-- An event on the `Speed` meter. -/
inductive SpeedEv
  | edge (t : Int)
  | drain
deriving DecidableEq

/-- Apply one `Speed` event. -/
def speedStep (s : SpeedState) : SpeedEv → SpeedState
  | .edge t => cb_hall s t
  | .drain => (Speed.get_avg s).2

/-- Run a `Speed` event trace from a meter constructed with the
calibration used in `show()` (`hall_tick_dist_mm=298`). -/
def speedRun (evs : List SpeedEv) : SpeedState :=
  evs.foldl speedStep (initSpeed 298)

/-- Trace of `n` accepted spark edges spaced 10 ms apart starting at 0
(each delta 10 exceeds the 4 ms bounce threshold). -/
def rpmEdges (n : Nat) : List RpmEv :=
  (List.range n).map fun k => .edge (10 * ((k : Nat) : Int))

/-- Trace of `n` accepted hall edges spaced 40 ms apart starting at 0
(each delta 40 exceeds the 36 ms bounce threshold). -/
def speedEdges (n : Nat) : List SpeedEv :=
  (List.range n).map fun k => .edge (40 * ((k : Nat) : Int))

/-- Structural invariant of the `Rpm` meter: the pending count is at most
capacity + 1 (the guard `spark_count <= ARRAYSIZE` admits one increment
at `spark_count = ARRAYSIZE`), the read index stays below capacity, the
write index stays in `[-1, capacity)`, and write index −1 only occurs
with an empty buffer. -/
def RpmInv (s : RpmState) : Prop :=
  s.spark_count ≤ Rpm.ARRAYSIZE + 1 ∧
  s.spark_read_index < Rpm.ARRAYSIZE ∧
  -1 ≤ s.spark_write_index ∧ s.spark_write_index < (Rpm.ARRAYSIZE : Int) ∧
  (s.spark_write_index = -1 → s.spark_count = 0)

/-- Structural invariant of the `Speed` meter, as for `RpmInv`. -/
def SpeedInv (s : SpeedState) : Prop :=
  s.hall_count ≤ Speed.ARRAYSIZE + 1 ∧
  s.hall_read_index < Speed.ARRAYSIZE ∧
  -1 ≤ s.hall_write_index ∧ s.hall_write_index < (Speed.ARRAYSIZE : Int) ∧
  (s.hall_write_index = -1 → s.hall_count = 0)

/-! ## Button: the gesture detector -/

/-- Source `Button.NORMAL_SLEEP`. -/
def Button.NORMAL_SLEEP : Nat := 300

/-- Source `Button.BUTTON_CHECK_SLEEP`. -/
def Button.BUTTON_CHECK_SLEEP : Nat := 50

/-- Source `Button.BUTTON_DOWN` (active-low input: pressed reads 0). -/
def Button.BUTTON_DOWN : Nat := 0

/-- Source `Button.BUTTON_UP`. -/
def Button.BUTTON_UP : Nat := 1

/-- State of a `Button` instance.  The two timer objects are modelled by
armed/active flags: `debounce_timer_armed` for the one-shot
`button_debounce_timer` and `series_timer_active` for the periodic
`button_series_click_timer`. -/
structure ButtonState where
  main_loop_sleep : Nat
  button_press_time_ms : Int
  button_press_count : Int
  button_waiting_bounce : Bool
  button_waiting_more_clicks : Bool
  button_series_click_prev_value : Nat
  debounce_timer_armed : Bool
  series_timer_active : Bool
deriving DecidableEq

/-- Source `Button.__init__`. -/
def initButton : ButtonState :=
  { main_loop_sleep := Button.NORMAL_SLEEP
    button_press_time_ms := 0
    button_press_count := 0
    button_waiting_bounce := false
    button_waiting_more_clicks := false
    button_series_click_prev_value := 0
    debounce_timer_armed := false
    series_timer_active := false }

/-- Source `Button.cb_button_series` (periodic timer callback), with the sampled
`self.button.value()` passed in as `level`. -/
def cb_button_series (s : ButtonState) (level : Nat) : ButtonState :=
  if level = Button.BUTTON_DOWN then
    let s1 :=
      if s.button_series_click_prev_value = Button.BUTTON_UP then
        { s with button_press_count := s.button_press_count + 1 }
      else s
    { s1 with button_series_click_prev_value := Button.BUTTON_DOWN }
  else
    if s.button_series_click_prev_value = Button.BUTTON_DOWN then
      { s with button_series_click_prev_value := Button.BUTTON_UP }
    else
      { s with series_timer_active := false
               button_waiting_more_clicks := false
               main_loop_sleep := Button.NORMAL_SLEEP }

/-- Source `Button.cb_button_debounce` (one-shot timer callback), with the
sampled `self.button.value()` passed in as `level`. -/
def cb_button_debounce (s0 : ButtonState) (level : Nat) : ButtonState :=
  let s := { s0 with debounce_timer_armed := false }
  let s1 :=
    if level = Button.BUTTON_DOWN then
      { s with button_waiting_bounce := false
               button_press_count := 1
               button_waiting_more_clicks := true
               button_series_click_prev_value := Button.BUTTON_DOWN
               series_timer_active := true }
    else
      { s with main_loop_sleep := Button.NORMAL_SLEEP }
  { s1 with button_waiting_bounce := false }

/-- Source `Button.cb_button` (falling-edge interrupt), with the interrupt's
`utime.ticks_ms()` reading passed in as `t`. -/
def cb_button (s : ButtonState) (t : Int) : ButtonState :=
  if s.button_waiting_bounce || s.button_waiting_more_clicks then s
  else
    { s with button_waiting_bounce := true
             button_press_time_ms := t
             main_loop_sleep := Button.BUTTON_CHECK_SLEEP
             debounce_timer_armed := true }

/-- Source `Button.pressed`: query and reset from the polling loop. -/
def Button.pressed (s : ButtonState) : Int × ButtonState :=
  if s.button_waiting_more_clicks then (-1, s)
  else (s.button_press_count, { s with button_press_count := 0 })

/-! ## Limiter -/

/-- Source `Limiter` operation mode (`UNLIMITED = 0`, `LIMITED = 1`,
`LIMP = 2`). -/
inductive Mode
  | unlimited
  | limited
  | limp
deriving DecidableEq

/-- The ignition output peripheral `self.ign`: either a plain digital
pin (with its level) or a PWM channel (with frequency and duty). -/
inductive IgnOut
  | digital (level : Bool)
  | pwm (freq : Nat) (duty : Nat)
deriving DecidableEq

/-- Source `Limiter.FREQ`. -/
def Limiter.FREQ : Nat := 250

/-- Source `Limiter.LIMIT_DUTY`. -/
def Limiter.LIMIT_DUTY : Nat := 128

/-- Source `Limiter.LIMP_DUTY`. -/
def Limiter.LIMP_DUTY : Nat := 768

/-- Source `Limiter.LIMIT_RPM_HIGH`. -/
def Limiter.LIMIT_RPM_HIGH : ℚ := 6000

/-- Source `Limiter.LIMIT_RPM_LOW`. -/
def Limiter.LIMIT_RPM_LOW : ℚ := 5800

/-- Source `Limiter.LIMP_RPM_HIGH`. -/
def Limiter.LIMP_RPM_HIGH : ℚ := 7000

/-- Source `Limiter.LIMP_RPM_LOW`. -/
def Limiter.LIMP_RPM_LOW : ℚ := 6800

/-- Source `Limiter.LIMIT_SPEED_HIGH`. -/
def Limiter.LIMIT_SPEED_HIGH : ℚ := 42

/-- Source `Limiter.LIMIT_SPEED_LOW`. -/
def Limiter.LIMIT_SPEED_LOW : ℚ := 40

/-- Source `Limiter.LIMP_SPEED_HIGH`. -/
def Limiter.LIMP_SPEED_HIGH : ℚ := 50

/-- Source `Limiter.LIMP_SPEED_LOW`. -/
def Limiter.LIMP_SPEED_LOW : ℚ := 48

/-- State of a `Limiter` instance: the mode and the ignition output. -/
structure LimiterState where
  mode : Mode
  ign : IgnOut
deriving DecidableEq

/-- Call `self.ign.duty(d)` on an existing handle.  On a PWM channel this sets
the duty; calling it on a plain digital pin would be a Python
`AttributeError`, a combination unreachable from the constructor because
`mode ≠ UNLIMITED` always goes with a PWM handle. -/
def IgnOut.duty : IgnOut → Nat → IgnOut
  | .pwm f _, d => .pwm f d
  | .digital b, _ => .digital b

/-- Source `Limiter.limit`: fresh PWM at `FREQ` only when coming from
`UNLIMITED`, then duty `LIMIT_DUTY`, mode `LIMITED`. -/
def Limiter.limit (l : LimiterState) : LimiterState :=
  let ign :=
    if l.mode = Mode.unlimited then IgnOut.pwm Limiter.FREQ Limiter.LIMIT_DUTY
    else l.ign.duty Limiter.LIMIT_DUTY
  ⟨Mode.limited, ign⟩

/-- Source `Limiter.limp`: fresh PWM at `FREQ` only when coming from
`UNLIMITED`, then duty `LIMP_DUTY`, mode `LIMP`. -/
def Limiter.limp (l : LimiterState) : LimiterState :=
  let ign :=
    if l.mode = Mode.unlimited then IgnOut.pwm Limiter.FREQ Limiter.LIMP_DUTY
    else l.ign.duty Limiter.LIMP_DUTY
  ⟨Mode.limp, ign⟩

/-- Source `Limiter.free`: tear the PWM down back to a plain pin driven low
unless already `UNLIMITED`, mode `UNLIMITED`. -/
def Limiter.free (l : LimiterState) : LimiterState :=
  let ign := if l.mode ≠ Mode.unlimited then IgnOut.digital false else l.ign
  ⟨Mode.unlimited, ign⟩

/-- Source `Limiter.__init__(pin, mode)`, `mode` being `None` or one of the
numeric mode constants.  The body sets `self.mode = UNLIMITED` and the
pin as a plain digital output driven off; when `mode == LIMITED` it then
runs `self.limit(self)` (and `self.limp(self)` for `LIMP`): `limit` and
`limp` are bound methods of one parameter, so the call passes two
positional arguments and raises `TypeError` before the constructor can
return, modelled as `Except.error`. -/
def Limiter.init (mode : Option Nat) : Except String LimiterState :=
  let l : LimiterState := ⟨Mode.unlimited, IgnOut.digital false⟩
  match mode with
  | none => .ok l
  | some m =>
      if m = 1 then .error "TypeError: limit() takes 1 positional argument but 2 were given"
      else if m = 2 then .error "TypeError: limp() takes 1 positional argument but 2 were given"
      else .ok l

/-! ## The limiter-update logic of one `show()` loop cycle

`show()` snapshots `mode = limiter.get_mode()` at the top of the cycle
and then runs two separate `if`/`elif` chains whose conditions all test
the snapshot while their bodies mutate the limiter. -/

/-- The first `if`/`elif` chain of the loop body (`free` / `limp`),
conditions on the snapshot `mode`. -/
def showPhase1 (mode : Mode) (l : LimiterState) (rpm_avg kmh : ℚ) : LimiterState :=
  if mode ≠ Mode.unlimited ∧ rpm_avg < Limiter.LIMIT_RPM_LOW ∧ kmh < Limiter.LIMIT_SPEED_LOW then
    Limiter.free l
  else if mode ≠ Mode.limp ∧ (rpm_avg > Limiter.LIMP_RPM_HIGH ∨ kmh > Limiter.LIMP_SPEED_HIGH) then
    Limiter.limp l
  else l

/-- The second `if`/`elif` chain of the loop body (`limit`), conditions
on the snapshot `mode`. -/
def showPhase2 (mode : Mode) (l : LimiterState) (rpm_avg kmh : ℚ) : LimiterState :=
  if mode = Mode.unlimited ∧ (rpm_avg > Limiter.LIMIT_RPM_HIGH ∨ kmh > Limiter.LIMIT_SPEED_HIGH) then
    Limiter.limit l
  else if mode = Mode.limp ∧ rpm_avg < Limiter.LIMP_RPM_LOW ∧ kmh < Limiter.LIMP_SPEED_LOW then
    Limiter.limit l
  else l

/-- One cycle of the `show()` loop's limiter update on the current
`rpm_avg` and `kmh` readings: snapshot the mode, run both chains. -/
def showStep (l : LimiterState) (rpm_avg kmh : ℚ) : LimiterState :=
  showPhase2 l.mode (showPhase1 l.mode l rpm_avg kmh) rpm_avg kmh

/-- Fold `showStep` over a list of `(rpm_avg, kmh)` readings. -/
def runShow (l : LimiterState) (rs : List (ℚ × ℚ)) : LimiterState :=
  rs.foldl (fun a p => showStep a p.1 p.2) l

/-- Number of cycles in a reading sequence whose `showStep` call changes
the limiter mode. -/
def countTransitions (l : LimiterState) : List (ℚ × ℚ) → Nat
  | [] => 0
  | p :: rest =>
      let l2 := showStep l p.1 p.2
      (if l2.mode = l.mode then 0 else 1) + countTransitions l2 rest

/-! ## Helper lemmas -/

/-- A bounce-filtered spark edge only records the disqualification. -/
theorem cb_spark_disq (s : RpmState) (t : Int) (hw : ¬ s.spark_write_index = -1)
    (hd : ticks_diff t (s.sparks.getD s.spark_write_index.toNat 0) ≤ 4) :
    (cb_spark s t).spark_count = s.spark_count ∧
    (cb_spark s t).spark_disqualified = s.spark_disqualified + 1 ∧
    (cb_spark s t).spark_write_index = s.spark_write_index ∧
    (cb_spark s t).sparks = s.sparks := by
  simp only [cb_spark]
  rw [if_neg hw, if_neg (not_lt.mpr hd)]
  exact ⟨rfl, rfl, rfl, rfl⟩

/-- A bounce-filtered hall edge only records the disqualification, and
the running total is restored. -/
theorem cb_hall_disq (s : SpeedState) (t : Int) (hw : ¬ s.hall_write_index = -1)
    (hd : ticks_diff t (s.halls.getD s.hall_write_index.toNat 0) ≤ 36) :
    (cb_hall s t).hall_count = s.hall_count ∧
    (cb_hall s t).hall_disqualified = s.hall_disqualified + 1 ∧
    (cb_hall s t).hall_total = s.hall_total ∧
    (cb_hall s t).hall_write_index = s.hall_write_index ∧
    (cb_hall s t).halls = s.halls := by
  simp only [cb_hall]
  rw [if_neg hw, if_neg (not_lt.mpr hd)]
  refine ⟨rfl, rfl, ?_, rfl, rfl⟩
  simp

/-- Evaluation rule for `Rpm.avg` given the drain-loop result. -/
theorem Rpm_avg_eval (s : RpmState) (n : Nat) (sum : Int) (ri : Nat) (prev : Int)
    (hc : s.spark_count = n) (hn : 0 < n)
    (hd : drainLoop Rpm.ARRAYSIZE n s.sparks s.spark_read_index s.prev_spark_ms 0 = (sum, ri, prev)) :
    Rpm.avg s =
      (if ((sum : ℚ) / (n : ℚ)) = 0 then none
       else some ((n : ℚ) * 1000 / ((sum : ℚ) / (n : ℚ)) * 60),
       { s with spark_count := 0, spark_read_index := ri, prev_spark_ms := prev }) := by
  simp only [Rpm.avg]
  rw [hc, if_pos hn, hd]
  split_ifs <;> rfl

/-- Evaluation rule for `Speed.get_avg` given the drain-loop result. -/
theorem Speed_get_avg_eval (s : SpeedState) (n : Nat) (sum : Int) (ri : Nat) (prev : Int)
    (hc : s.hall_count = n) (hn : 0 < n)
    (hd : drainLoop Speed.ARRAYSIZE n s.halls s.hall_read_index s.prev_hall_ms 0 = (sum, ri, prev)) :
    Speed.get_avg s =
      (if ((sum : ℚ) / (n : ℚ)) = 0 then none
       else some ((n : ℚ) * (s.dist : ℚ) * 10 / ((sum : ℚ) / (n : ℚ)) / 36),
       { s with hall_count := 0, hall_read_index := ri, prev_hall_ms := prev }) := by
  simp only [Speed.get_avg]
  rw [hc, if_pos hn, hd]
  split_ifs <;> rfl

/-! ## C1 -/

/-- C1: refuted at a concrete input.  With the limiter in `LIMP` and both
readings at 0 (below both limit-low thresholds), the loop cycle does not
end in `UNLIMITED`: the first chain runs `free()` (mode `UNLIMITED`) and
the second chain, still testing the stale snapshot `mode == LIMP`, runs
`limit()`, so the call makes two mode transitions and ends in
`LIMITED`. -/
theorem c1_counterexample :
    (showStep ⟨Mode.limp, IgnOut.pwm 250 768⟩ 0 0).mode ≠ Mode.unlimited ∧
    showPhase1 Mode.limp ⟨Mode.limp, IgnOut.pwm 250 768⟩ 0 0 = ⟨Mode.unlimited, IgnOut.digital false⟩ ∧
    showStep ⟨Mode.limp, IgnOut.pwm 250 768⟩ 0 0 = ⟨Mode.limited, IgnOut.pwm 250 128⟩ := by
  decide

/-- C1 (amended): the loop cycle runs two separate `if`/`elif` chains on
a snapshot of the mode, so up to two transitions occur per call.  From
`LIMITED` with both readings below limit-low the call ends `UNLIMITED`
driving the plain pin; from `LIMP` with both readings below limit-low
the call runs `free` and then `limit` and ends `LIMITED`; from
`UNLIMITED` with the rate above limp-high the call runs `limp` and then
`limit` and ends `LIMITED`. -/
theorem c1_theorem :
    (∀ (l : LimiterState) (r s : ℚ), l.mode = Mode.limited →
        r < Limiter.LIMIT_RPM_LOW → s < Limiter.LIMIT_SPEED_LOW →
        showStep l r s = ⟨Mode.unlimited, IgnOut.digital false⟩) ∧
    (∀ (l : LimiterState) (r s : ℚ), l.mode = Mode.limp →
        r < Limiter.LIMIT_RPM_LOW → s < Limiter.LIMIT_SPEED_LOW →
        showStep l r s = ⟨Mode.limited, IgnOut.pwm 250 128⟩) ∧
    (∀ (l : LimiterState) (r s : ℚ), l.mode = Mode.unlimited →
        Limiter.LIMP_RPM_HIGH < r →
        showStep l r s = ⟨Mode.limited, IgnOut.pwm 250 128⟩) := by
  refine ⟨fun l r s hm hr hs => ?_, fun l r s hm hr hs => ?_, fun l r s hm hr => ?_⟩
  · unfold showStep showPhase1 showPhase2
    rw [hm]
    rw [if_neg (by simp), if_neg (by simp)]
    rw [if_pos ⟨by decide, hr, hs⟩]
    simp [Limiter.free, hm]
  · unfold showStep showPhase1 showPhase2
    rw [hm]
    have hr6800 : r < Limiter.LIMP_RPM_LOW := by
      unfold Limiter.LIMIT_RPM_LOW at hr
      unfold Limiter.LIMP_RPM_LOW
      linarith
    have hs48 : s < Limiter.LIMP_SPEED_LOW := by
      unfold Limiter.LIMIT_SPEED_LOW at hs
      unfold Limiter.LIMP_SPEED_LOW
      linarith
    rw [if_neg (by simp), if_pos ⟨rfl, hr6800, hs48⟩]
    rw [if_pos ⟨by decide, hr, hs⟩]
    simp [Limiter.limit, Limiter.free, hm, Limiter.FREQ, Limiter.LIMIT_DUTY]
  · unfold showStep showPhase1 showPhase2
    rw [hm]
    have hr6000 : Limiter.LIMIT_RPM_HIGH < r := by
      unfold Limiter.LIMP_RPM_HIGH at hr
      unfold Limiter.LIMIT_RPM_HIGH
      linarith
    rw [if_pos ⟨rfl, Or.inl hr6000⟩]
    rw [if_neg (by simp), if_pos ⟨by decide, Or.inl hr⟩]
    simp [Limiter.limit, Limiter.limp, hm, IgnOut.duty, Limiter.FREQ, Limiter.LIMIT_DUTY,
      Limiter.LIMP_DUTY]

/-- C1: witness instantiating each amended case at concrete inputs. -/
theorem c1_witness :
    showStep ⟨Mode.limited, IgnOut.pwm 250 128⟩ 1000 10 = ⟨Mode.unlimited, IgnOut.digital false⟩ ∧
    showStep ⟨Mode.limp, IgnOut.pwm 250 768⟩ 1000 10 = ⟨Mode.limited, IgnOut.pwm 250 128⟩ ∧
    showStep ⟨Mode.unlimited, IgnOut.digital false⟩ 7500 0 = ⟨Mode.limited, IgnOut.pwm 250 128⟩ :=
  ⟨c1_theorem.1 _ 1000 10 rfl (by decide) (by decide),
   c1_theorem.2.1 _ 1000 10 rfl (by decide) (by decide),
   c1_theorem.2.2 _ 7500 0 rfl (by decide)⟩

/-! ## C2 -/

/-- C2: refuted at a concrete reachable state.  After a single spark edge
at timestamp 0 the drained interval sum is `ticks_diff 0 0 = 0`, the
average interval is 0, and `rounds * 1000 / avg_spark_interval_ms`
raises `ZeroDivisionError` even though the pending-count guard passed. -/
theorem c2_counterexample :
    (Rpm.avg (cb_spark initRpm 0)).1 = none ∧ (cb_spark initRpm 0).spark_count = 1 := by
  refine ⟨?_, by decide⟩
  rw [Rpm_avg_eval (cb_spark initRpm 0) 1 0 1 0 (by decide) (by decide) (by decide)]
  norm_num

/-- C2 (amended): the positivity check on the pending count guards the
division by `rounds`/`hall_tics`, but not the later division by the
average interval: `Rpm.avg` (resp. `Speed.get_avg`) raises exactly when
the pending count is positive and the drained wrap-safe interval sum is
zero, and such a state is reachable (a single edge at timestamp 0); in
every other state the call returns a value and raises nothing. -/
theorem c2_theorem :
    (∀ s : RpmState,
        (Rpm.avg s).1 = none ↔
          0 < s.spark_count ∧
            (drainLoop Rpm.ARRAYSIZE s.spark_count s.sparks s.spark_read_index s.prev_spark_ms 0).1 = 0) ∧
    (∀ s : SpeedState,
        (Speed.get_avg s).1 = none ↔
          0 < s.hall_count ∧
            (drainLoop Speed.ARRAYSIZE s.hall_count s.halls s.hall_read_index s.prev_hall_ms 0).1 = 0) := by
  constructor
  · intro s
    by_cases h : 0 < s.spark_count
    · have hne : (s.spark_count : ℚ) ≠ 0 := by
        exact_mod_cast Nat.pos_iff_ne_zero.mp h
      simp only [Rpm.avg, if_pos h]
      have key :
          (((drainLoop Rpm.ARRAYSIZE s.spark_count s.sparks s.spark_read_index s.prev_spark_ms 0).1 : ℚ)
              / (s.spark_count : ℚ) = 0) ↔
            (drainLoop Rpm.ARRAYSIZE s.spark_count s.sparks s.spark_read_index s.prev_spark_ms 0).1 = 0 := by
        rw [div_eq_zero_iff]
        simp [hne]
      by_cases hz :
          (drainLoop Rpm.ARRAYSIZE s.spark_count s.sparks s.spark_read_index s.prev_spark_ms 0).1 = 0
      · rw [if_pos (key.mpr hz)]
        simp [h, hz]
      · rw [if_neg (fun hc => hz (key.mp hc))]
        simp [h, hz]
    · simp only [Rpm.avg, if_neg h]
      simp [h]
  · intro s
    by_cases h : 0 < s.hall_count
    · have hne : (s.hall_count : ℚ) ≠ 0 := by
        exact_mod_cast Nat.pos_iff_ne_zero.mp h
      simp only [Speed.get_avg, if_pos h]
      have key :
          (((drainLoop Speed.ARRAYSIZE s.hall_count s.halls s.hall_read_index s.prev_hall_ms 0).1 : ℚ)
              / (s.hall_count : ℚ) = 0) ↔
            (drainLoop Speed.ARRAYSIZE s.hall_count s.halls s.hall_read_index s.prev_hall_ms 0).1 = 0 := by
        rw [div_eq_zero_iff]
        simp [hne]
      by_cases hz :
          (drainLoop Speed.ARRAYSIZE s.hall_count s.halls s.hall_read_index s.prev_hall_ms 0).1 = 0
      · rw [if_pos (key.mpr hz)]
        simp [h, hz]
      · rw [if_neg (fun hc => hz (key.mp hc))]
        simp [h, hz]
    · simp only [Speed.get_avg, if_neg h]
      simp [h]

/-! ## C5 -/

/-- C5: refuted.  Edges at 0, 20, 40, 60 ms give 4 accepted events (the
first edge is itself counted), the drain chains from the initial
baseline 0 so the interval sum is 0+20+20+20 = 60 over 4 rounds, and
`avg()` returns 16000, not 9000. -/
theorem c5_counterexample :
    (Rpm.avg (cb_spark (cb_spark (cb_spark (cb_spark initRpm 0) 20) 40) 60)).1 ≠ some 9000 ∧
    (cb_spark (cb_spark (cb_spark (cb_spark initRpm 0) 20) 40) 60).spark_count ≠ 3 := by
  refine ⟨?_, by decide⟩
  rw [Rpm_avg_eval (cb_spark (cb_spark (cb_spark (cb_spark initRpm 0) 20) 40) 60) 4 60 4 60
    (by decide) (by decide) (by decide)]
  norm_num

/-- C5 (amended): edges at 0, 20, 40, 60 ms on the rotational meter
(bounce threshold 4 ms) produce 4 accepted events; the drain sums the
wrap-safe deltas chained from the initial baseline 0 (0, 20, 20, 20,
total 60), and `avg()` returns 4·1000/15·60 = 16000. -/
theorem c5_theorem :
    (cb_spark (cb_spark (cb_spark (cb_spark initRpm 0) 20) 40) 60).spark_count = 4 ∧
    (drainLoop Rpm.ARRAYSIZE 4
      (cb_spark (cb_spark (cb_spark (cb_spark initRpm 0) 20) 40) 60).sparks 0 0 0).1 = 60 ∧
    (Rpm.avg (cb_spark (cb_spark (cb_spark (cb_spark initRpm 0) 20) 40) 60)).1 = some 16000 := by
  refine ⟨by decide, by decide, ?_⟩
  rw [Rpm_avg_eval (cb_spark (cb_spark (cb_spark (cb_spark initRpm 0) 20) 40) 60) 4 60 4 60
    (by decide) (by decide) (by decide)]
  norm_num

/-! ## C6 -/

/-- C6: refuted.  Confirmed press (debounce sees the button down), then
three burst samples with the button still held down, then release (two
up samples end the burst): `pressed()` returns 1, not 3 — holding adds
no clicks, only a released-to-pressed transition between consecutive
samples does. -/
theorem c6_counterexample :
    (Button.pressed (cb_button_series (cb_button_series (cb_button_series (cb_button_series
      (cb_button_series (cb_button_debounce (cb_button initButton 100) Button.BUTTON_DOWN)
        Button.BUTTON_DOWN) Button.BUTTON_DOWN) Button.BUTTON_DOWN) Button.BUTTON_UP)
      Button.BUTTON_UP)).1 ≠ 3 := by
  decide

/-- C6 (amended): after a confirmed press held through three burst
samples and then released, the burst ends and `pressed()` returns 1; in
general a burst sample that still reads pressed while the previous
sample already read pressed leaves the accumulated count unchanged. -/
theorem c6_theorem :
    ((cb_button_series (cb_button_series (cb_button_series (cb_button_series
        (cb_button_series (cb_button_debounce (cb_button initButton 100) Button.BUTTON_DOWN)
          Button.BUTTON_DOWN) Button.BUTTON_DOWN) Button.BUTTON_DOWN) Button.BUTTON_UP)
        Button.BUTTON_UP).button_waiting_more_clicks = false ∧
      (Button.pressed (cb_button_series (cb_button_series (cb_button_series (cb_button_series
        (cb_button_series (cb_button_debounce (cb_button initButton 100) Button.BUTTON_DOWN)
          Button.BUTTON_DOWN) Button.BUTTON_DOWN) Button.BUTTON_DOWN) Button.BUTTON_UP)
        Button.BUTTON_UP)).1 = 1) ∧
    (∀ s : ButtonState, s.button_series_click_prev_value = Button.BUTTON_DOWN →
      (cb_button_series s Button.BUTTON_DOWN).button_press_count = s.button_press_count) := by
  refine ⟨by decide, ?_⟩
  intro s hprev
  simp [cb_button_series, hprev, Button.BUTTON_DOWN, Button.BUTTON_UP]

/-- C6: witness instantiating the general no-increment fact. -/
theorem c6_witness :
    (cb_button_series (cb_button_debounce (cb_button initButton 100) Button.BUTTON_DOWN)
      Button.BUTTON_DOWN).button_press_count =
      (cb_button_debounce (cb_button initButton 100) Button.BUTTON_DOWN).button_press_count :=
  c6_theorem.2 _ (by decide)

/-! ## C7 -/

/-- C7: the bounce boundary is exclusive.  On either meter, an edge whose
wrap-safe delta to the last stored timestamp is at most the threshold
(4 ms for sparks, 36 ms for halls — equality included) is rejected: the
pending count is unchanged and the disqualified counter increments by
exactly one (and the hall running total is restored); two edges from an
empty meter at distance at most the threshold leave exactly one accepted
event; in particular hall edges at 0 and exactly 36 ms are so treated. -/
theorem c7_theorem :
    (∀ (s : RpmState) (t : Int), ¬ s.spark_write_index = -1 →
        ticks_diff t (s.sparks.getD s.spark_write_index.toNat 0) ≤ 4 →
        (cb_spark s t).spark_count = s.spark_count ∧
        (cb_spark s t).spark_disqualified = s.spark_disqualified + 1) ∧
    (∀ (s : SpeedState) (t : Int), ¬ s.hall_write_index = -1 →
        ticks_diff t (s.halls.getD s.hall_write_index.toNat 0) ≤ 36 →
        (cb_hall s t).hall_count = s.hall_count ∧
        (cb_hall s t).hall_disqualified = s.hall_disqualified + 1 ∧
        (cb_hall s t).hall_total = s.hall_total) ∧
    (∀ t0 t1 : Int, ticks_diff t1 t0 ≤ 4 →
        (cb_spark (cb_spark initRpm t0) t1).spark_count = 1 ∧
        (cb_spark (cb_spark initRpm t0) t1).spark_disqualified = 1) ∧
    ((cb_hall (cb_hall (initSpeed 298) 0) 36).hall_count = 1 ∧
      (cb_hall (cb_hall (initSpeed 298) 0) 36).hall_disqualified = 1 ∧
      ticks_diff 36 0 = 36) := by
  refine ⟨fun s t hw hd => ?_, fun s t hw hd => ?_, fun t0 t1 hd => ?_, by decide⟩
  · exact ⟨(cb_spark_disq s t hw hd).1, (cb_spark_disq s t hw hd).2.1⟩
  · exact ⟨(cb_hall_disq s t hw hd).1, (cb_hall_disq s t hw hd).2.1, (cb_hall_disq s t hw hd).2.2.1⟩
  · have hw : (cb_spark initRpm t0).spark_write_index = 0 := rfl
    have hg : (cb_spark initRpm t0).sparks.getD
        (cb_spark initRpm t0).spark_write_index.toNat 0 = t0 := rfl
    have hc : (cb_spark initRpm t0).spark_count = 1 := rfl
    have hq : (cb_spark initRpm t0).spark_disqualified = 0 := rfl
    have hdq := cb_spark_disq (cb_spark initRpm t0) t1 (by rw [hw]; decide) (by rw [hg]; exact hd)
    rw [hdq.1, hdq.2.1, hc, hq]
    exact ⟨rfl, rfl⟩

/-- C7: witness at spark edges 0 and 4 (delta equal to the threshold)
and the stated hall example. -/
theorem c7_witness :
    (cb_spark (cb_spark initRpm 0) 4).spark_count = 1 ∧
    (cb_spark (cb_spark initRpm 0) 4).spark_disqualified = 1 :=
  c7_theorem.2.2.1 0 4 (by decide)

/-! ## C8 -/

/-- C8: `pressed()` returns the sentinel −1 and leaves everything
untouched while the burst-counting flag is active, and otherwise returns
the accumulated count and resets only it. -/
theorem c8_theorem :
    ∀ s : ButtonState,
      (s.button_waiting_more_clicks = true → Button.pressed s = (-1, s)) ∧
      (s.button_waiting_more_clicks = false →
        (Button.pressed s).1 = s.button_press_count ∧
        (Button.pressed s).2 = { s with button_press_count := 0 }) := by
  intro s
  constructor <;> intro h <;> simp [Button.pressed, h]

/-- C8: witness at one mid-burst state and one idle state. -/
theorem c8_witness :
    Button.pressed { initButton with button_waiting_more_clicks := true, button_press_count := 2 } =
      (-1, { initButton with button_waiting_more_clicks := true, button_press_count := 2 }) ∧
    (Button.pressed { initButton with button_press_count := 2 }).1 = 2 :=
  ⟨(c8_theorem _).1 rfl, by
    have h := (c8_theorem { initButton with button_press_count := 2 }).2 rfl
    exact h.1⟩

/-! ## C10 -/

/-- C10: constructing a `Limiter` with the optional mode argument equal
to `LIMITED` (1) or `LIMP` (2) always raises `TypeError` (the
constructor calls the bound one-parameter method with an extra
argument), and every successfully constructed limiter starts in
`UNLIMITED` with the ignition output a plain digital pin driven low. -/
theorem c10_theorem :
    Limiter.init (some 1) =
      .error "TypeError: limit() takes 1 positional argument but 2 were given" ∧
    Limiter.init (some 2) =
      .error "TypeError: limp() takes 1 positional argument but 2 were given" ∧
    ∀ (arg : Option Nat) (l : LimiterState), Limiter.init arg = .ok l →
      l.mode = Mode.unlimited ∧ l.ign = IgnOut.digital false := by
  refine ⟨rfl, rfl, ?_⟩
  intro arg l h
  cases arg with
  | none =>
      simp only [Limiter.init, Except.ok.injEq] at h
      rw [← h]
      exact ⟨rfl, rfl⟩
  | some m =>
      simp only [Limiter.init] at h
      split_ifs at h
      simp only [Except.ok.injEq] at h
      rw [← h]
      exact ⟨rfl, rfl⟩

/-- C10: witness — the default construction succeeds in `UNLIMITED` with
the plain pin. -/
theorem c10_witness :
    Limiter.init none = Except.ok (⟨Mode.unlimited, IgnOut.digital false⟩ : LimiterState) ∧
    (⟨Mode.unlimited, IgnOut.digital false⟩ : LimiterState).mode = Mode.unlimited ∧
    (⟨Mode.unlimited, IgnOut.digital false⟩ : LimiterState).ign = IgnOut.digital false :=
  ⟨rfl, (c10_theorem.2.2 none _ rfl).1, (c10_theorem.2.2 none _ rfl).2⟩

/-! ## C3 -/

/-- The drain loop keeps the read index below the buffer size. -/
theorem drainLoop_ri_lt (size : Nat) (hsz : 0 < size) :
    ∀ (n : Nat) (buf : List Int) (ri : Nat) (prev acc : Int), ri < size →
      (drainLoop size n buf ri prev acc).2.1 < size := by
  intro n
  induction n with
  | zero => intro buf ri prev acc h; exact h
  | succ k ih =>
      intro buf ri prev acc h
      simp only [drainLoop]
      exact ih buf _ _ _ (Nat.mod_lt _ hsz)

/-- Handler `cb_spark` preserves the `Rpm` invariant. -/
theorem cb_spark_inv (s : RpmState) (t : Int) (h : RpmInv s) : RpmInv (cb_spark s t) := by
  simp only [RpmInv, Rpm.ARRAYSIZE] at h ⊢
  obtain ⟨h1, h2, h3, h4, h5⟩ := h
  simp only [cb_spark, Rpm.ARRAYSIZE]
  split_ifs with hw hd hc <;> dsimp only
  · have h0 := h5 hw
    exact ⟨by omega, h2, by omega, by omega, fun hh => hh.elim⟩
  · exact ⟨by omega, h2, by omega, by omega, by omega⟩
  · exact ⟨h1, h2, h3, h4, h5⟩
  · exact ⟨h1, h2, h3, h4, h5⟩

/-- Drain `Rpm.avg` preserves the `Rpm` invariant. -/
theorem avg_inv (s : RpmState) (h : RpmInv s) : RpmInv (Rpm.avg s).2 := by
  simp only [RpmInv] at h ⊢
  obtain ⟨h1, h2, h3, h4, h5⟩ := h
  simp only [Rpm.avg]
  split_ifs with hpos hz <;> dsimp only
  · exact ⟨by omega, drainLoop_ri_lt _ (by decide) _ _ _ _ _ h2, h3, h4, fun _ => rfl⟩
  · exact ⟨by omega, drainLoop_ri_lt _ (by decide) _ _ _ _ _ h2, h3, h4, fun _ => rfl⟩
  · exact ⟨h1, h2, h3, h4, h5⟩

/-- Every `Rpm` event preserves the invariant. -/
theorem rpmStep_inv (s : RpmState) (ev : RpmEv) (h : RpmInv s) : RpmInv (rpmStep s ev) := by
  cases ev with
  | edge t => exact cb_spark_inv s t h
  | drain => exact avg_inv s h

/-- Any event trace from the fresh `Rpm` meter lands in the invariant. -/
theorem rpmRun_inv (evs : List RpmEv) : RpmInv (rpmRun evs) := by
  have gen : ∀ (l : List RpmEv) (s : RpmState), RpmInv s → RpmInv (l.foldl rpmStep s) := by
    intro l
    induction l with
    | nil => intro s h; exact h
    | cons e rest ih => intro s h; exact ih _ (rpmStep_inv s e h)
  exact gen evs initRpm (by simp only [RpmInv]; decide)

/-- Handler `cb_hall` preserves the `Speed` invariant. -/
theorem cb_hall_inv (s : SpeedState) (t : Int) (h : SpeedInv s) : SpeedInv (cb_hall s t) := by
  simp only [SpeedInv, Speed.ARRAYSIZE] at h ⊢
  obtain ⟨h1, h2, h3, h4, h5⟩ := h
  simp only [cb_hall, Speed.ARRAYSIZE]
  split_ifs with hw hd hc <;> dsimp only
  · have h0 := h5 hw
    exact ⟨by omega, h2, by omega, by omega, fun hh => hh.elim⟩
  · exact ⟨by omega, h2, by omega, by omega, by omega⟩
  · exact ⟨h1, h2, h3, h4, h5⟩
  · exact ⟨h1, h2, h3, h4, h5⟩

/-- Drain `Speed.get_avg` preserves the `Speed` invariant. -/
theorem get_avg_inv (s : SpeedState) (h : SpeedInv s) : SpeedInv (Speed.get_avg s).2 := by
  simp only [SpeedInv] at h ⊢
  obtain ⟨h1, h2, h3, h4, h5⟩ := h
  simp only [Speed.get_avg]
  split_ifs with hpos hz <;> dsimp only
  · exact ⟨by omega, drainLoop_ri_lt _ (by decide) _ _ _ _ _ h2, h3, h4, fun _ => rfl⟩
  · exact ⟨by omega, drainLoop_ri_lt _ (by decide) _ _ _ _ _ h2, h3, h4, fun _ => rfl⟩
  · exact ⟨h1, h2, h3, h4, h5⟩

/-- Every `Speed` event preserves the invariant. -/
theorem speedStep_inv (s : SpeedState) (ev : SpeedEv) (h : SpeedInv s) :
    SpeedInv (speedStep s ev) := by
  cases ev with
  | edge t => exact cb_hall_inv s t h
  | drain => exact get_avg_inv s h

/-- Any event trace from the fresh `Speed` meter lands in the invariant. -/
theorem speedRun_inv (evs : List SpeedEv) : SpeedInv (speedRun evs) := by
  have gen : ∀ (l : List SpeedEv) (s : SpeedState), SpeedInv s → SpeedInv (l.foldl speedStep s) := by
    intro l
    induction l with
    | nil => intro s h; exact h
    | cons e rest ih => intro s h; exact ih _ (speedStep_inv s e h)
  exact gen evs (initSpeed 298) (by simp only [SpeedInv]; decide)

/-- C3: refuted on the pending-count bound.  The guard
`spark_count <= ARRAYSIZE` still accepts an edge when the count already
equals the capacity, so 21 accepted spark edges (resp. 11 hall edges)
without a drain push the pending count to capacity + 1. -/
theorem c3_counterexample :
    (rpmRun (rpmEdges 21)).spark_count = 21 ∧
    ¬ (rpmRun (rpmEdges 21)).spark_count ≤ Rpm.ARRAYSIZE ∧
    (speedRun (speedEdges 11)).hall_count = 11 ∧
    ¬ (speedRun (speedEdges 11)).hall_count ≤ Speed.ARRAYSIZE := by
  decide

/-- C3 (amended): for every sequence of edge events and drains, the
pending count of a rate meter never exceeds capacity + 1 (21 for `Rpm`,
11 for `Speed`) — it can reach capacity + 1 because the overflow guard
is `count <= capacity` — and the read index always stays within
`[0, capacity)` while the write index stays within `[-1, capacity)`
(it is −1 until the first edge, and thereafter modulo capacity). -/
theorem c3_theorem :
    (∀ evs : List RpmEv,
        (rpmRun evs).spark_count ≤ Rpm.ARRAYSIZE + 1 ∧
        (rpmRun evs).spark_read_index < Rpm.ARRAYSIZE ∧
        -1 ≤ (rpmRun evs).spark_write_index ∧
        (rpmRun evs).spark_write_index < (Rpm.ARRAYSIZE : Int)) ∧
    (∀ evs : List SpeedEv,
        (speedRun evs).hall_count ≤ Speed.ARRAYSIZE + 1 ∧
        (speedRun evs).hall_read_index < Speed.ARRAYSIZE ∧
        -1 ≤ (speedRun evs).hall_write_index ∧
        (speedRun evs).hall_write_index < (Speed.ARRAYSIZE : Int)) := by
  constructor
  · intro evs
    obtain ⟨h1, h2, h3, h4, _⟩ := rpmRun_inv evs
    exact ⟨h1, h2, h3, h4⟩
  · intro evs
    obtain ⟨h1, h2, h3, h4, _⟩ := speedRun_inv evs
    exact ⟨h1, h2, h3, h4⟩

/-! ## C9 -/

/-- With the mode `LIMITED`, readings that neither drop both signals
below limit-low nor push one above limp-high leave the loop cycle a
no-op. -/
theorem showStep_limited_fix (l : LimiterState) (r s : ℚ) (hm : l.mode = Mode.limited)
    (h1 : ¬ (r < 5800 ∧ s < 40)) (h2 : r ≤ 7000) (h3 : s ≤ 50) :
    showStep l r s = l := by
  unfold showStep showPhase1 showPhase2
  simp only [Limiter.LIMIT_RPM_LOW, Limiter.LIMIT_SPEED_LOW, Limiter.LIMIT_RPM_HIGH,
    Limiter.LIMIT_SPEED_HIGH, Limiter.LIMP_RPM_HIGH, Limiter.LIMP_SPEED_HIGH,
    Limiter.LIMP_RPM_LOW, Limiter.LIMP_SPEED_LOW]
  rw [hm]
  rw [if_neg (by simp), if_neg (by simp),
    if_neg (fun hc => h1 ⟨hc.2.1, hc.2.2⟩),
    if_neg (by rintro ⟨-, hx | hx⟩ <;> linarith)]

/-- A run of such readings from `LIMITED` makes no transition. -/
theorem run_limited_fix (rs : List (ℚ × ℚ)) :
    ∀ l : LimiterState, l.mode = Mode.limited →
      (∀ p ∈ rs, ¬ (p.1 < 5800 ∧ p.2 < 40) ∧ p.1 ≤ 7000 ∧ p.2 ≤ 50) →
      runShow l rs = l ∧ countTransitions l rs = 0 := by
  induction rs with
  | nil => intro l _ _; exact ⟨rfl, rfl⟩
  | cons p rest ih =>
      intro l hm hall
      have hp := hall p (by simp)
      have hfix := showStep_limited_fix l p.1 p.2 hm hp.1 hp.2.1 hp.2.2
      have hrest : ∀ q ∈ rest, ¬ (q.1 < 5800 ∧ q.2 < 40) ∧ q.1 ≤ 7000 ∧ q.2 ≤ 50 :=
        fun q hq => hall q (List.mem_cons_of_mem _ hq)
      constructor
      · show runShow (showStep l p.1 p.2) rest = l
        rw [hfix]
        exact (ih l hm hrest).1
      · show (if (showStep l p.1 p.2).mode = l.mode then 0 else 1) +
            countTransitions (showStep l p.1 p.2) rest = 0
        rw [hfix]
        simp only [eq_self_iff_true, if_true, Nat.zero_add]
        exact (ih l hm hrest).2

/-- With the mode `UNLIMITED` and the rate at most limit-high (speed
below its limit-low), the loop cycle is a no-op. -/
theorem showStep_unlimited_low (l : LimiterState) (r s : ℚ) (hm : l.mode = Mode.unlimited)
    (hr : r ≤ 6000) (hs : s < 40) : showStep l r s = l := by
  unfold showStep showPhase1 showPhase2
  simp only [Limiter.LIMIT_RPM_LOW, Limiter.LIMIT_SPEED_LOW, Limiter.LIMIT_RPM_HIGH,
    Limiter.LIMIT_SPEED_HIGH, Limiter.LIMP_RPM_HIGH, Limiter.LIMP_SPEED_HIGH,
    Limiter.LIMP_RPM_LOW, Limiter.LIMP_SPEED_LOW]
  rw [hm]
  rw [if_neg (by rintro ⟨-, hx | hx⟩ <;> linarith), if_neg (by simp),
    if_neg (by simp), if_neg (by rintro ⟨-, hx | hx⟩ <;> linarith)]

/-- With the mode `UNLIMITED`, a rate crossing into
(limit-high, limp-high] with the speed below limit-low transitions to
`LIMITED` with a fresh PWM at the limit duty. -/
theorem showStep_unlimited_cross (l : LimiterState) (r s : ℚ) (hm : l.mode = Mode.unlimited)
    (hr1 : 6000 < r) (hr2 : r ≤ 7000) (hs : s < 40) :
    showStep l r s = ⟨Mode.limited, IgnOut.pwm 250 128⟩ := by
  unfold showStep showPhase1 showPhase2
  simp only [Limiter.LIMIT_RPM_LOW, Limiter.LIMIT_SPEED_LOW, Limiter.LIMIT_RPM_HIGH,
    Limiter.LIMIT_SPEED_HIGH, Limiter.LIMP_RPM_HIGH, Limiter.LIMP_SPEED_HIGH,
    Limiter.LIMP_RPM_LOW, Limiter.LIMP_SPEED_LOW]
  rw [hm]
  rw [if_pos ⟨rfl, Or.inl hr1⟩, if_neg (by simp),
    if_neg (by rintro ⟨-, hx | hx⟩ <;> linarith)]
  simp [Limiter.limit, hm, Limiter.FREQ, Limiter.LIMIT_DUTY]

/-- A monotone sweep from `UNLIMITED` whose rates stay at most limp-high
and whose speeds stay below limit-low, and which crosses limit-high,
makes exactly one transition, to `LIMITED`. -/
theorem run_unlimited_sweep (rs : List (ℚ × ℚ)) :
    ∀ l : LimiterState, l.mode = Mode.unlimited →
      (∀ p ∈ rs, p.2 < 40 ∧ p.1 ≤ 7000) →
      List.Pairwise (fun a b => a ≤ b) (rs.map Prod.fst) →
      (∃ p ∈ rs, 6000 < p.1) →
      countTransitions l rs = 1 ∧ (runShow l rs).mode = Mode.limited := by
  induction rs with
  | nil =>
      intro l _ _ _ hex
      simp at hex
  | cons p rest ih =>
      intro l hm hall hpair hex
      have hp := hall p (List.mem_cons_self _ _)
      rw [List.map_cons, List.pairwise_cons] at hpair
      obtain ⟨hle, hpair2⟩ := hpair
      have hrest : ∀ q ∈ rest, q.2 < 40 ∧ q.1 ≤ 7000 :=
        fun q hq => hall q (List.mem_cons_of_mem _ hq)
      by_cases hr : 6000 < p.1
      · have hstep := showStep_unlimited_cross l p.1 p.2 hm hr hp.2 hp.1
        have hfixh : ∀ q ∈ rest, ¬ (q.1 < 5800 ∧ q.2 < 40) ∧ q.1 ≤ 7000 ∧ q.2 ≤ 50 := by
          intro q hq
          have hq1 : p.1 ≤ q.1 := hle q.1 (List.mem_map_of_mem _ hq)
          have hq2 := hrest q hq
          exact ⟨fun hc => by linarith [hc.1], hq2.2, by linarith [hq2.1]⟩
        have hfix := run_limited_fix rest ⟨Mode.limited, IgnOut.pwm 250 128⟩ rfl hfixh
        constructor
        · show (if (showStep l p.1 p.2).mode = l.mode then 0 else 1) +
              countTransitions (showStep l p.1 p.2) rest = 1
          rw [hstep, hm]
          rw [if_neg (by simp), hfix.2]
        · show (runShow (showStep l p.1 p.2) rest).mode = Mode.limited
          rw [hstep, hfix.1]
      · have hr6 : p.1 ≤ 6000 := not_lt.mp hr
        have hstep := showStep_unlimited_low l p.1 p.2 hm hr6 hp.1
        have hex2 : ∃ q ∈ rest, 6000 < q.1 := by
          obtain ⟨q, hq, h6⟩ := hex
          rcases List.mem_cons.mp hq with hqp | hq2
          · exact absurd (hqp ▸ h6) hr
          · exact ⟨q, hq2, h6⟩
        constructor
        · show (if (showStep l p.1 p.2).mode = l.mode then 0 else 1) +
              countTransitions (showStep l p.1 p.2) rest = 1
          rw [hstep]
          simp only [eq_self_iff_true, if_true, Nat.zero_add]
          exact (ih l hm hrest hpair2 hex2).1
        · show (runShow (showStep l p.1 p.2) rest).mode = Mode.limited
          rw [hstep]
          exact (ih l hm hrest hpair2 hex2).2

/-- A cycle can only land in `UNLIMITED` from a restricted mode when
both readings are below their limit-low thresholds. -/
theorem showStep_unlimited_only (l : LimiterState) (r s : ℚ)
    (hm : ¬ l.mode = Mode.unlimited) (hres : (showStep l r s).mode = Mode.unlimited) :
    r < 5800 ∧ s < 40 := by
  by_cases hA1 : r < 5800 ∧ s < 40
  · exact hA1
  · exfalso
    have hP1 : ¬ (showPhase1 l.mode l r s).mode = Mode.unlimited := by
      unfold showPhase1
      simp only [Limiter.LIMIT_RPM_LOW, Limiter.LIMIT_SPEED_LOW,
        Limiter.LIMP_RPM_HIGH, Limiter.LIMP_SPEED_HIGH]
      split_ifs with h1 h2
      · exact absurd ⟨h1.2.1, h1.2.2⟩ hA1
      · simp [Limiter.limp]
      · exact hm
    have hno : ¬ (showStep l r s).mode = Mode.unlimited := by
      unfold showStep showPhase2
      split_ifs with h1 h2
      · simp [Limiter.limit]
      · simp [Limiter.limit]
      · exact hP1
    exact hno hres

/-- C9: a monotonically increasing rate sweep crossing limit-high (rate
staying at most limp-high, speed below limit-low throughout) transitions
`UNLIMITED` → `LIMITED` exactly once and ends in `LIMITED`; readings
oscillating strictly between limit-low and limit-high cause no further
transition; and a cycle returns to `UNLIMITED` from a restricted mode
only when both the rate and the speed are below limit-low on that same
evaluation. -/
theorem c9_theorem :
    (∀ (l : LimiterState) (rs : List (ℚ × ℚ)), l.mode = Mode.unlimited →
        (∀ p ∈ rs, p.2 < Limiter.LIMIT_SPEED_LOW ∧ p.1 ≤ Limiter.LIMP_RPM_HIGH) →
        List.Pairwise (fun a b => a ≤ b) (rs.map Prod.fst) →
        (∃ p ∈ rs, Limiter.LIMIT_RPM_HIGH < p.1) →
        countTransitions l rs = 1 ∧ (runShow l rs).mode = Mode.limited) ∧
    (∀ (l : LimiterState) (rs : List (ℚ × ℚ)), l.mode = Mode.limited →
        (∀ p ∈ rs, Limiter.LIMIT_RPM_LOW < p.1 ∧ p.1 < Limiter.LIMIT_RPM_HIGH ∧
          p.2 < Limiter.LIMIT_SPEED_LOW) →
        countTransitions l rs = 0 ∧ (runShow l rs).mode = Mode.limited) ∧
    (∀ (l : LimiterState) (r s : ℚ), ¬ l.mode = Mode.unlimited →
        (showStep l r s).mode = Mode.unlimited →
        r < Limiter.LIMIT_RPM_LOW ∧ s < Limiter.LIMIT_SPEED_LOW) := by
  refine ⟨?_, ?_, ?_⟩
  · intro l rs hm hall hpair hex
    have hall2 : ∀ p ∈ rs, p.2 < 40 ∧ p.1 ≤ 7000 := by
      simpa only [Limiter.LIMIT_SPEED_LOW, Limiter.LIMP_RPM_HIGH] using hall
    have hex2 : ∃ p ∈ rs, 6000 < p.1 := by
      simpa only [Limiter.LIMIT_RPM_HIGH] using hex
    exact run_unlimited_sweep rs l hm hall2 hpair hex2
  · intro l rs hm hall
    have hall2 : ∀ p ∈ rs, ¬ (p.1 < 5800 ∧ p.2 < 40) ∧ p.1 ≤ 7000 ∧ p.2 ≤ 50 := by
      intro p hp
      have h := hall p hp
      simp only [Limiter.LIMIT_RPM_LOW, Limiter.LIMIT_RPM_HIGH,
        Limiter.LIMIT_SPEED_LOW] at h
      exact ⟨fun hc => by linarith [hc.1, h.1], by linarith [h.2.1], by linarith [h.2.2]⟩
    have hfix := run_limited_fix rs l hm hall2
    refine ⟨hfix.2, ?_⟩
    rw [hfix.1]
    exact hm
  · intro l r s hm hres
    have h := showStep_unlimited_only l r s hm hres
    simpa only [Limiter.LIMIT_RPM_LOW, Limiter.LIMIT_SPEED_LOW] using h

/-- C9: witness instantiating the sweep, the oscillation and the
return-condition parts at concrete inputs. -/
theorem c9_witness :
    (countTransitions ⟨Mode.unlimited, IgnOut.digital false⟩ [(5000, 0), (6500, 0)] = 1 ∧
      (runShow ⟨Mode.unlimited, IgnOut.digital false⟩ [(5000, 0), (6500, 0)]).mode = Mode.limited) ∧
    (countTransitions ⟨Mode.limited, IgnOut.pwm 250 128⟩ [(5900, 10)] = 0 ∧
      (runShow ⟨Mode.limited, IgnOut.pwm 250 128⟩ [(5900, 10)]).mode = Mode.limited) ∧
    ((5000 : ℚ) < Limiter.LIMIT_RPM_LOW ∧ (0 : ℚ) < Limiter.LIMIT_SPEED_LOW) := by
  refine ⟨?_, ?_, ?_⟩
  · exact c9_theorem.1 ⟨Mode.unlimited, IgnOut.digital false⟩ [(5000, 0), (6500, 0)] rfl
      (by decide) (by decide) (by decide)
  · exact c9_theorem.2.1 ⟨Mode.limited, IgnOut.pwm 250 128⟩ [(5900, 10)] rfl (by decide)
  · have h := c9_theorem.2.2 ⟨Mode.limited, IgnOut.pwm 250 128⟩ 5000 0 (by decide) (by decide)
    exact ⟨h.1, by decide⟩

/-! ## C4 -/

/-- On deltas within the half-period window, the wrap-safe difference is
the plain difference. -/
theorem ticks_diff_eq (a b : Int) (h1 : -(2 ^ 29) ≤ a - b) (h2 : a - b < 2 ^ 29) :
    ticks_diff a b = a - b := by
  unfold ticks_diff TICKS_PERIOD
  have h30 : (2 : Int) ^ 30 = 2 ^ 29 + 2 ^ 29 := by norm_num
  rw [Int.emod_eq_of_lt (by linarith) (by linarith)]
  ring

/-- Reading back a just-written slot. -/
theorem getD_set_self (l : List Int) (i : Nat) (a : Int) (h : i < l.length) :
    (l.set i a).getD i 0 = a := by
  induction l generalizing i with
  | nil => exact absurd h (by simp)
  | cons x xs ih =>
      cases i with
      | zero => rfl
      | succ k => exact ih k (by simpa using h)

/-- Closed form of the `Rpm` meter state after `n` accepted edges spaced
10 ms apart from an empty meter: the pending count saturates at 21
(capacity + 1), the overflow counter counts the edges beyond that, and
the write index and last-stored timestamp follow the accepted edges. -/
theorem rpmEdges_closed (n : Nat) (hn : n ≤ 100000) :
    (rpmRun (rpmEdges n)).spark_count = min n 21 ∧
    (rpmRun (rpmEdges n)).spark_overflow = n - min n 21 ∧
    (rpmRun (rpmEdges n)).spark_write_index =
      (if n = 0 then -1 else (((min n 21 : Nat) : Int) - 1) % 20) ∧
    (rpmRun (rpmEdges n)).sparks.getD (rpmRun (rpmEdges n)).spark_write_index.toNat 0 =
      (if n = 0 then 0 else 10 * (((min n 21 : Nat) : Int) - 1)) ∧
    (rpmRun (rpmEdges n)).sparks.length = 20 := by
  induction n with
  | zero => decide
  | succ n ih =>
      have hn2 : n ≤ 100000 := by omega
      obtain ⟨ic, io, iw, ig, il⟩ := ih hn2
      have hstep : rpmRun (rpmEdges (n + 1)) =
          cb_spark (rpmRun (rpmEdges n)) (10 * (n : Int)) := by
        unfold rpmRun rpmEdges
        rw [List.range_succ, List.map_append, List.foldl_append]
        rfl
      rcases Nat.eq_zero_or_pos n with hn0 | hn1
      · subst hn0
        decide
      · have hn0 : ¬ n = 0 := by omega
        have hw0 : (rpmRun (rpmEdges n)).spark_write_index =
            (((min n 21 : Nat) : Int) - 1) % 20 := by rw [iw, if_neg hn0]
        have hg0 : (rpmRun (rpmEdges n)).sparks.getD
            (rpmRun (rpmEdges n)).spark_write_index.toNat 0 =
            10 * (((min n 21 : Nat) : Int) - 1) := by rw [ig, if_neg hn0]
        have hpow : (2 : Int) ^ 29 = 536870912 := by norm_num
        rcases Nat.lt_or_ge n 21 with hlt | hge
        · -- accepted edge: 1 ≤ n ≤ 20
          have hmin : min n 21 = n := by omega
          have hmin2 : min (n + 1) 21 = n + 1 := by omega
          have hwv : (rpmRun (rpmEdges n)).spark_write_index = (n : Int) - 1 := by
            rw [hw0, hmin]
            exact Int.emod_eq_of_lt (by omega) (by omega)
          have hab : 10 * (n : Int) - 10 * ((n : Int) - 1) = 10 := by ring
          have hdiff := ticks_diff_eq (10 * (n : Int)) (10 * ((n : Int) - 1))
            (by rw [hab]; norm_num) (by rw [hab]; norm_num)
          rw [hab] at hdiff
          have hcond1 : ¬ (rpmRun (rpmEdges n)).spark_write_index = -1 := by
            rw [hwv]; omega
          have hcond2 : ticks_diff (10 * (n : Int))
              ((rpmRun (rpmEdges n)).sparks.getD
                (rpmRun (rpmEdges n)).spark_write_index.toNat 0) > 4 := by
            rw [hg0, hmin, hdiff]
            norm_num
          have hcond3 : (rpmRun (rpmEdges n)).spark_count ≤ Rpm.ARRAYSIZE := by
            rw [ic]
            simp only [Rpm.ARRAYSIZE]
            omega
          rw [hstep]
          simp only [cb_spark, Rpm.ARRAYSIZE]
          rw [if_neg hcond1, if_pos hcond2, if_pos (by simpa [Rpm.ARRAYSIZE] using hcond3)]
          dsimp only
          have hidx : ((((rpmRun (rpmEdges n)).spark_write_index + 1) % 20).toNat) < 20 := by
            have hnn := Int.emod_nonneg ((rpmRun (rpmEdges n)).spark_write_index + 1)
              (b := (20 : Int)) (by norm_num)
            have hlt2 := Int.emod_lt_of_pos ((rpmRun (rpmEdges n)).spark_write_index + 1)
              (b := (20 : Int)) (by norm_num)
            omega
          refine ⟨?_, ?_, ?_, ?_, ?_⟩
          · rw [ic]; omega
          · rw [io]; omega
          · rw [if_neg (by omega : ¬ n + 1 = 0), hwv, hmin2]
            have h1 : (n : Int) - 1 + 1 = (((n + 1 : Nat) : Nat) : Int) - 1 := by
              push_cast; ring
            rw [h1]
            norm_num
          · rw [if_neg (by omega : ¬ n + 1 = 0), hmin2]
            rw [getD_set_self _ _ _ (by rw [il]; exact hidx)]
            push_cast
            ring
          · rw [List.length_set, il]
        · -- overflowing edge: n ≥ 21
          have hmin : min n 21 = 21 := by omega
          have hmin2 : min (n + 1) 21 = 21 := by omega
          have hwv : (rpmRun (rpmEdges n)).spark_write_index = 0 := by
            rw [hw0, hmin]; decide
          have hgv : (rpmRun (rpmEdges n)).sparks.getD
              (rpmRun (rpmEdges n)).spark_write_index.toNat 0 = 200 := by
            rw [hg0, hmin]; decide
          have hcond1 : ¬ (rpmRun (rpmEdges n)).spark_write_index = -1 := by
            rw [hwv]; decide
          have hdiff := ticks_diff_eq (10 * (n : Int)) 200 (by omega) (by omega)
          have hcond2 : ticks_diff (10 * (n : Int))
              ((rpmRun (rpmEdges n)).sparks.getD
                (rpmRun (rpmEdges n)).spark_write_index.toNat 0) > 4 := by
            rw [hgv, hdiff]
            omega
          have hcond3 : ¬ (rpmRun (rpmEdges n)).spark_count ≤ Rpm.ARRAYSIZE := by
            rw [ic]
            simp only [Rpm.ARRAYSIZE]
            omega
          rw [hstep]
          simp only [cb_spark, Rpm.ARRAYSIZE]
          rw [if_neg hcond1, if_pos hcond2, if_neg (by simpa [Rpm.ARRAYSIZE] using hcond3)]
          dsimp only
          refine ⟨?_, ?_, ?_, ?_, ?_⟩
          · rw [ic]; omega
          · rw [io]; omega
          · rw [if_neg (by omega : ¬ n + 1 = 0), hmin2, hwv]
            decide
          · rw [if_neg (by omega : ¬ n + 1 = 0), hmin2]
            rw [hwv] at hgv ⊢
            rw [hgv]
            decide
          · exact il

/-- Closed form of the `Speed` meter state after `n` accepted edges
spaced 40 ms apart from an empty meter, as in `rpmEdges_closed`: the
pending count saturates at 11 (capacity + 1) and the overflow counter
counts the edges beyond that. -/
theorem speedEdges_closed (n : Nat) (hn : n ≤ 100000) :
    (speedRun (speedEdges n)).hall_count = min n 11 ∧
    (speedRun (speedEdges n)).hall_overflow = n - min n 11 ∧
    (speedRun (speedEdges n)).hall_write_index =
      (if n = 0 then -1 else (((min n 11 : Nat) : Int) - 1) % 10) ∧
    (speedRun (speedEdges n)).halls.getD (speedRun (speedEdges n)).hall_write_index.toNat 0 =
      (if n = 0 then 0 else 40 * (((min n 11 : Nat) : Int) - 1)) ∧
    (speedRun (speedEdges n)).halls.length = 10 := by
  induction n with
  | zero => decide
  | succ n ih =>
      have hn2 : n ≤ 100000 := by omega
      obtain ⟨ic, io, iw, ig, il⟩ := ih hn2
      have hstep : speedRun (speedEdges (n + 1)) =
          cb_hall (speedRun (speedEdges n)) (40 * (n : Int)) := by
        unfold speedRun speedEdges
        rw [List.range_succ, List.map_append, List.foldl_append]
        rfl
      rcases Nat.eq_zero_or_pos n with hn0 | hn1
      · subst hn0
        decide
      · have hn0 : ¬ n = 0 := by omega
        have hw0 : (speedRun (speedEdges n)).hall_write_index =
            (((min n 11 : Nat) : Int) - 1) % 10 := by rw [iw, if_neg hn0]
        have hg0 : (speedRun (speedEdges n)).halls.getD
            (speedRun (speedEdges n)).hall_write_index.toNat 0 =
            40 * (((min n 11 : Nat) : Int) - 1) := by rw [ig, if_neg hn0]
        have hpow : (2 : Int) ^ 29 = 536870912 := by norm_num
        rcases Nat.lt_or_ge n 11 with hlt | hge
        · -- accepted edge: 1 ≤ n ≤ 10
          have hmin : min n 11 = n := by omega
          have hmin2 : min (n + 1) 11 = n + 1 := by omega
          have hwv : (speedRun (speedEdges n)).hall_write_index = (n : Int) - 1 := by
            rw [hw0, hmin]
            exact Int.emod_eq_of_lt (by omega) (by omega)
          have hab : 40 * (n : Int) - 40 * ((n : Int) - 1) = 40 := by ring
          have hdiff := ticks_diff_eq (40 * (n : Int)) (40 * ((n : Int) - 1))
            (by rw [hab]; norm_num) (by rw [hab]; norm_num)
          rw [hab] at hdiff
          have hcond1 : ¬ (speedRun (speedEdges n)).hall_write_index = -1 := by
            rw [hwv]; omega
          have hcond2 : ticks_diff (40 * (n : Int))
              ((speedRun (speedEdges n)).halls.getD
                (speedRun (speedEdges n)).hall_write_index.toNat 0) > 36 := by
            rw [hg0, hmin, hdiff]
            norm_num
          have hcond3 : (speedRun (speedEdges n)).hall_count ≤ Speed.ARRAYSIZE := by
            rw [ic]
            simp only [Speed.ARRAYSIZE]
            omega
          rw [hstep]
          simp only [cb_hall, Speed.ARRAYSIZE]
          rw [if_neg hcond1, if_pos hcond2, if_pos (by simpa [Speed.ARRAYSIZE] using hcond3)]
          dsimp only
          have hidx : ((((speedRun (speedEdges n)).hall_write_index + 1) % 10).toNat) < 10 := by
            have hnn := Int.emod_nonneg ((speedRun (speedEdges n)).hall_write_index + 1)
              (b := (10 : Int)) (by norm_num)
            have hlt2 := Int.emod_lt_of_pos ((speedRun (speedEdges n)).hall_write_index + 1)
              (b := (10 : Int)) (by norm_num)
            omega
          refine ⟨?_, ?_, ?_, ?_, ?_⟩
          · rw [ic]; omega
          · rw [io]; omega
          · rw [if_neg (by omega : ¬ n + 1 = 0), hwv, hmin2]
            have h1 : (n : Int) - 1 + 1 = (((n + 1 : Nat) : Nat) : Int) - 1 := by
              push_cast; ring
            rw [h1]
            norm_num
          · rw [if_neg (by omega : ¬ n + 1 = 0), hmin2]
            rw [getD_set_self _ _ _ (by rw [il]; exact hidx)]
            push_cast
            ring
          · rw [List.length_set, il]
        · -- overflowing edge: n ≥ 11
          have hmin : min n 11 = 11 := by omega
          have hmin2 : min (n + 1) 11 = 11 := by omega
          have hwv : (speedRun (speedEdges n)).hall_write_index = 0 := by
            rw [hw0, hmin]; decide
          have hgv : (speedRun (speedEdges n)).halls.getD
              (speedRun (speedEdges n)).hall_write_index.toNat 0 = 400 := by
            rw [hg0, hmin]; decide
          have hcond1 : ¬ (speedRun (speedEdges n)).hall_write_index = -1 := by
            rw [hwv]; decide
          have hdiff := ticks_diff_eq (40 * (n : Int)) 400 (by omega) (by omega)
          have hcond2 : ticks_diff (40 * (n : Int))
              ((speedRun (speedEdges n)).halls.getD
                (speedRun (speedEdges n)).hall_write_index.toNat 0) > 36 := by
            rw [hgv, hdiff]
            omega
          have hcond3 : ¬ (speedRun (speedEdges n)).hall_count ≤ Speed.ARRAYSIZE := by
            rw [ic]
            simp only [Speed.ARRAYSIZE]
            omega
          rw [hstep]
          simp only [cb_hall, Speed.ARRAYSIZE]
          rw [if_neg hcond1, if_pos hcond2, if_neg (by simpa [Speed.ARRAYSIZE] using hcond3)]
          dsimp only
          refine ⟨?_, ?_, ?_, ?_, ?_⟩
          · rw [ic]; omega
          · rw [io]; omega
          · rw [if_neg (by omega : ¬ n + 1 = 0), hmin2, hwv]
            decide
          · rw [if_neg (by omega : ¬ n + 1 = 0), hmin2]
            rw [hwv] at hgv ⊢
            rw [hgv]
            decide
          · exact il

/-- C4: refuted.  Feeding capacity + 1 accepted edges from an empty
meter leaves the overflow counter at 0, not 1: the guard
`count <= capacity` still accepts the capacity + 1st edge, so the first
overflow increment only happens at edge capacity + 2. -/
theorem c4_counterexample :
    (rpmRun (rpmEdges 21)).spark_overflow = 0 ∧
    (speedRun (speedEdges 11)).hall_overflow = 0 ∧
    (rpmRun (rpmEdges 22)).spark_overflow = 1 := by
  decide

/-- C4 (amended): feeding `n` accepted edges from an empty meter gives
overflow count `n - min n (capacity + 2 - 1)`, i.e. zero up to
capacity + 1 edges and then exactly one increment per further edge
(capacity + 1 + j edges give overflow j); meanwhile after the first edge
the write index always stays within `[0, capacity)`.  Stated for edge
spacings 10 ms (`Rpm`) and 40 ms (`Speed`) up to 100000 edges. -/
theorem c4_theorem :
    (∀ n : Nat, n ≤ 100000 →
        (rpmRun (rpmEdges n)).spark_overflow = n - min n (Rpm.ARRAYSIZE + 1) ∧
        (1 ≤ n → 0 ≤ (rpmRun (rpmEdges n)).spark_write_index ∧
          (rpmRun (rpmEdges n)).spark_write_index < (Rpm.ARRAYSIZE : Int))) ∧
    (∀ n : Nat, n ≤ 100000 →
        (speedRun (speedEdges n)).hall_overflow = n - min n (Speed.ARRAYSIZE + 1) ∧
        (1 ≤ n → 0 ≤ (speedRun (speedEdges n)).hall_write_index ∧
          (speedRun (speedEdges n)).hall_write_index < (Speed.ARRAYSIZE : Int))) := by
  constructor
  · intro n hn
    obtain ⟨-, io, iw, -, -⟩ := rpmEdges_closed n hn
    refine ⟨by simpa [Rpm.ARRAYSIZE] using io, fun h1 => ?_⟩
    rw [iw, if_neg (by omega)]
    refine ⟨Int.emod_nonneg _ (by norm_num), ?_⟩
    simp only [Rpm.ARRAYSIZE]
    exact Int.emod_lt_of_pos _ (by norm_num)
  · intro n hn
    obtain ⟨-, io, iw, -, -⟩ := speedEdges_closed n hn
    refine ⟨by simpa [Speed.ARRAYSIZE] using io, fun h1 => ?_⟩
    rw [iw, if_neg (by omega)]
    refine ⟨Int.emod_nonneg _ (by norm_num), ?_⟩
    simp only [Speed.ARRAYSIZE]
    exact Int.emod_lt_of_pos _ (by norm_num)

/-- C4: witness at 22 spark edges (capacity + 2): exactly one overflow,
write index in range. -/
theorem c4_witness :
    (rpmRun (rpmEdges 22)).spark_overflow = 22 - min 22 (Rpm.ARRAYSIZE + 1) ∧
    (rpmRun (rpmEdges 22)).spark_overflow = 1 ∧
    0 ≤ (rpmRun (rpmEdges 22)).spark_write_index ∧
    (rpmRun (rpmEdges 22)).spark_write_index < (Rpm.ARRAYSIZE : Int) := by
  have h := c4_theorem.1 22 (by norm_num)
  refine ⟨h.1, ?_, (h.2 (by norm_num)).1, (h.2 (by norm_num)).2⟩
  rw [h.1]
  simp [Rpm.ARRAYSIZE]

end Mopo
